import Mathlib

/-!
A verification development for the conda-tui repository: a shallow embedding
of the data model and operations of `conda_tui/package.py` and
`conda_tui/app.py`, together with theorems settling the specified properties.

Python strings are modelled as Lean `String` (sequences of code points);
Python `None`-able attributes as `Option`; Python exceptions as `Except`;
the external conda metadata store (`PrefixData`) as an explicit function
parameter; process-wide memoization (`functools.cache` / `lru_cache`) as
explicit state passing.
-/

namespace CondaTui

/-- Modelled from the spec: the `Environment` record of
`conda_tui/environment.py` (that module is not part of the sources here; only
its callers are). Per the spec's data model it carries an optional display
`name`, an optional filesystem `path` (the synthetic root placeholder has no
path), and `rpath`, a display-friendly representation of the path.  The
`prefix` attribute used by the Package Lister is the environment's path.
Equality is componentwise value equality (same name/path). -/
structure Environment where
  name : Option String := none
  path : Option String := none
  rpath : Option String := none
deriving DecidableEq, Repr

/-- The synthetic root node's data: `Environment()` with nothing set. -/
def rootEnv : Environment := {}

/-- Python truthiness of an optional string: `None` and `""` are falsy. -/
def optTruthy : Option String → Bool
  | none => false
  | some s => !(s == "")

/-- Python `x or y` on optional strings: `x` when truthy, else `y`. -/
def pyOr (x y : Option String) : Option String :=
  if optTruthy x then x else y

/-- Python `x or y` where `y` is a plain string fallback. -/
def pyOrStr (x : Option String) (y : String) : String :=
  if optTruthy x then x.getD "" else y

/-- Embeds `str(env.prefix)`: the path the metadata store is opened at
(Python's `str(None)` is the literal string `"None"`). -/
def Environment.prefixStr (env : Environment) : String :=
  env.path.getD "None"

/-- An installed-package record produced by the external metadata store
(conda's `PrefixRecord`, an opaque external collaborator).  `name`,
`version` and `extracted_package_dir` are the attributes the code reads
directly; `attrs` models the record's full dynamic attribute surface for
pass-through access (attribute values are modelled as strings; `none`
models an absent attribute, i.e. `AttributeError` on `getattr`). -/
structure PrefixRecord where
  name : String
  version : String
  extracted_package_dir : Option String := none
  attrs : String → Option String := fun _ => none

/-- Embeds the `Package` view-model: wraps one record and owns the mutable
`_update_available` flag (set at construction from a random draw; the draw's
outcome is a constructor argument here since randomness is external). -/
structure Package where
  record : PrefixRecord
  update_available : Bool

/-- Pass-through read of the record's `name` (used as the sort key). -/
def Package.name (p : Package) : String := p.record.name

/-- Pass-through read of the record's `version` (used by `status`). -/
def Package.version (p : Package) : String := p.record.version

/-- A rich `Text` value, modelled as its list of (text, style) spans. -/
structure RichText where
  spans : List (String × String)
deriving DecidableEq, Repr

/-- An unstyled `Text` value. -/
def RichText.plain (s : String) : RichText := ⟨[(s, "")]⟩

/-- `Text` concatenation (`+`). -/
def RichText.append (a b : RichText) : RichText := ⟨a.spans ++ b.spans⟩

/-- Embeds `Package._get_update_status_icon`: `Text.from_markup` of a bold
colored UPWARDS ARROW when an update is available, else a bold colored
HEAVY CHECK MARK. -/
def Package.getUpdateStatusIcon : Bool → RichText
  | true => ⟨[("↑", "bold #DB6015")]⟩
  | false => ⟨[("✔", "bold #43b049")]⟩

/-- The fixed "update available" glyph value. -/
def upGlyph : RichText := ⟨[("↑", "bold #DB6015")]⟩

/-- The fixed "up to date" glyph value. -/
def checkGlyph : RichText := ⟨[("✔", "bold #43b049")]⟩

/-- Embeds `Package.status`: the icon for the current update flag, a space,
then the version string (left-associated `+` as in the source). -/
def Package.status (p : Package) : RichText :=
  RichText.append
    (RichText.append (Package.getUpdateStatusIcon p.update_available) (RichText.plain " "))
    (RichText.plain p.version)

/-- Embeds the `update_available` property setter: assignment to the
backing `_update_available` field. -/
def Package.setUpdateAvailable (p : Package) (b : Bool) : Package :=
  { p with update_available := b }

/-- A sample record for witness instantiations. -/
def sampleRecord : PrefixRecord :=
  { name := "numpy", version := "1.24.0", extracted_package_dir := some "/opt/conda/pkgs/numpy"
    attrs := fun a => if a = "channel" then some "defaults" else none }

/-- A sample package for witness instantiations. -/
def samplePackage : Package := { record := sampleRecord, update_available := true }

/-- C4: `Package.status` renders the fixed up-arrow glyph, a space and the
version when `update_available` is true, and the fixed check-mark glyph, a
space and the version when it is false; the glyph mapping is a pure total
function of the boolean with exactly two distinct outputs. -/
theorem status_glyph (p : Package) :
    p.status = RichText.append
      (RichText.append (if p.update_available then upGlyph else checkGlyph) (RichText.plain " "))
      (RichText.plain p.version) ∧
    upGlyph ≠ checkGlyph ∧
    (∀ b : Bool, Package.getUpdateStatusIcon b = upGlyph ∨
      Package.getUpdateStatusIcon b = checkGlyph) := by
  refine ⟨?_, by decide, ?_⟩
  · cases h : p.update_available <;>
      simp [Package.status, Package.getUpdateStatusIcon, upGlyph, checkGlyph, h]
  · intro b
    cases b
    · exact Or.inr rfl
    · exact Or.inl rfl

/-- C4 witness: the statement of `status_glyph` instantiated at a concrete
package. -/
theorem status_glyph_witness :
    samplePackage.status = RichText.append
      (RichText.append (if samplePackage.update_available then upGlyph else checkGlyph)
        (RichText.plain " "))
      (RichText.plain samplePackage.version) ∧
    upGlyph ≠ checkGlyph ∧
    (∀ b : Bool, Package.getUpdateStatusIcon b = upGlyph ∨
      Package.getUpdateStatusIcon b = checkGlyph) :=
  status_glyph samplePackage

/-- C10: after setting the `update_available` flag to `b`, reading it back
yields `b`, and `status` immediately renders the glyph for `b` followed by
the version string — the mutable flag overrides the construction-time value. -/
theorem set_update_available_roundtrip (p : Package) (b : Bool) :
    (p.setUpdateAvailable b).update_available = b ∧
    (p.setUpdateAvailable b).status = RichText.append
      (RichText.append (if b then upGlyph else checkGlyph) (RichText.plain " "))
      (RichText.plain p.version) := by
  refine ⟨rfl, ?_⟩
  cases b <;>
    simp [Package.setUpdateAvailable, Package.status, Package.getUpdateStatusIcon,
      Package.version, upGlyph, checkGlyph]

/-- The external metadata store in normal operation: for a path string, the
installed-package records `PrefixData(path, pip_interop_enabled=True)`
enumerates via `iter_records` (an opaque external collaborator, modelled as
a function parameter). -/
def Store := String → List PrefixRecord

/-- The boolean comparison Python's `sorted(..., key=lambda x: x.name)`
sorts by: lexicographic order on the name strings. -/
def packageNameLe (a b : Package) : Bool := decide (a.name ≤ b.name)

/-- Embeds `list_packages_for_environment` (the memoization-free body):
open the store at `str(env.prefix)`, wrap every record in a `Package`
(each with its construction-time random draw, supplied by `draws`), and
return them sorted by name ascending with Python's stable sort. -/
def list_packages_for_environment (store : Store) (draws : Nat → Bool)
    (env : Environment) : List Package :=
  ((store env.prefixStr).enum.map (fun ir => Package.mk ir.2 (draws ir.1))).mergeSort
    packageNameLe

theorem packageNameLe_trans (a b c : Package) (h₁ : packageNameLe a b = true)
    (h₂ : packageNameLe b c = true) : packageNameLe a c = true := by
  simp only [packageNameLe, decide_eq_true_eq] at *
  exact le_trans h₁ h₂

theorem packageNameLe_total (a b : Package) :
    (packageNameLe a b || packageNameLe b a) = true := by
  simp only [packageNameLe, Bool.or_eq_true, decide_eq_true_eq]
  exact le_total a.name b.name

/-- C1: for every environment (and every store and draw outcome), the
returned package sequence is sorted by `name` ascending, and the sort is
idempotent: re-sorting the returned sequence by name yields the same
sequence. -/
theorem list_packages_sorted_and_idempotent (store : Store) (draws : Nat → Bool)
    (env : Environment) :
    List.Sorted (fun a b : Package => a.name ≤ b.name)
      (list_packages_for_environment store draws env) ∧
    (list_packages_for_environment store draws env).mergeSort packageNameLe
      = list_packages_for_environment store draws env := by
  have hp := List.sorted_mergeSort packageNameLe_trans packageNameLe_total
    ((store env.prefixStr).enum.map (fun ir => Package.mk ir.2 (draws ir.1)))
  constructor
  · exact List.Pairwise.imp (fun h => by
      simpa [packageNameLe] using h) hp
  · exact List.mergeSort_of_sorted hp

/-- The Python exceptions the embedded code can raise. -/
inductive PyError where
  | attributeError
  | jsonDecodeError
deriving DecidableEq, Repr

/-- The state of a package's sidecar `info/about.json` file on disk:
absent, present but not valid JSON (so `json.load` raises), present as
valid non-object JSON (so `.get` raises `AttributeError`), or a JSON
object whose optional `"summary"` entry is modelled directly. -/
inductive FileState where
  | absent
  | malformed
  | jsonNonDict
  | jsonDict (summary : Option String)
deriving DecidableEq, Repr

/-- Embeds `Path(package_dir, "info", "about.json")`. -/
def infoPath (dir : String) : String := dir ++ "/info/about.json"

/-- Embeds `Package.description` against a filesystem `fs` mapping paths to
file states.  The `try`/`except AttributeError` only wraps the
`extracted_package_dir` read; a missing file is handled by the `exists()`
check; errors raised by `json.load` (malformed content) or by `.get` on a
non-object value are not caught and propagate.  (`cached_property`
memoization is per-instance and does not affect the computed value.) -/
def Package.description (fs : String → FileState) (p : Package) :
    Except PyError String :=
  match p.record.extracted_package_dir with
  | none => Except.ok ""
  | some dir =>
    match fs (infoPath dir) with
    | FileState.absent => Except.ok ""
    | FileState.malformed => Except.error PyError.jsonDecodeError
    | FileState.jsonNonDict => Except.error PyError.attributeError
    | FileState.jsonDict summary => Except.ok (summary.getD "")

/-- A filesystem on which every path holds a malformed-JSON file. -/
def fsMalformed : String → FileState := fun _ => FileState.malformed

/-- A filesystem with no files at all. -/
def fsEmpty : String → FileState := fun _ => FileState.absent

/-- A package whose record carries no extracted package directory. -/
def packageNoDir : Package :=
  { record := { name := "numpy", version := "1.24.0" }, update_available := false }

/-- C2 counterexample: on a package whose sidecar file exists but holds
malformed JSON, `description` raises `json.JSONDecodeError` instead of
returning the empty string — the `json.load` call is outside the
`try`/`except` block. -/
theorem description_malformed_raises :
    Package.description fsMalformed samplePackage
      = Except.error PyError.jsonDecodeError ∧
    Package.description fsMalformed samplePackage ≠ Except.ok "" := by
  exact ⟨rfl, by simp [Package.description, fsMalformed, samplePackage, sampleRecord]⟩

/-- C2 amended: `description` returns the empty string, without raising,
when the record has no extracted package directory or when the sidecar
file does not exist; but when the file exists with malformed JSON content
the decode error propagates (description raises). -/
theorem description_amended (fs : String → FileState) (p : Package) :
    (p.record.extracted_package_dir = none → Package.description fs p = Except.ok "") ∧
    (∀ dir, p.record.extracted_package_dir = some dir →
      fs (infoPath dir) = FileState.absent → Package.description fs p = Except.ok "") ∧
    (∀ dir, p.record.extracted_package_dir = some dir →
      fs (infoPath dir) = FileState.malformed →
      Package.description fs p = Except.error PyError.jsonDecodeError) := by
  refine ⟨fun h => by simp [Package.description, h], ?_, ?_⟩
  · intro dir hdir hfs
    simp [Package.description, hdir, hfs]
  · intro dir hdir hfs
    simp [Package.description, hdir, hfs]

/-- C2 amended witness: the no-directory case at a concrete package, the
hypothesis discharged by `rfl`. -/
theorem description_amended_witness :
    Package.description fsEmpty packageNoDir = Except.ok "" :=
  (description_amended fsEmpty packageNoDir).1 rfl

/-- The handler actions relevant to click handling: invoking the package
listing (`show_package_table`, which calls the Package Lister on the
node's environment) and expanding the clicked node. -/
inductive AppAction where
  | showPackageTable (env : Environment)
  | expandNode
deriving DecidableEq, Repr

/-- Embeds `CondaTUI.handle_tree_click`: if the clicked node's environment
has no truthy `path`, return immediately; otherwise show the package table
for that environment and expand the node. -/
def handleTreeClick (data : Environment) : List AppAction :=
  if optTruthy data.path then
    [AppAction.showPackageTable data, AppAction.expandNode]
  else []

/-- C5: a click on a node whose environment has no path set (in particular
the synthetic root) performs no action at all — the Package Lister is never
invoked — and whenever the lister is invoked from click handling, it is on
the clicked environment and that environment's path is set and non-empty. -/
theorem handle_tree_click_guard (data : Environment) :
    (optTruthy data.path = false → handleTreeClick data = []) ∧
    (∀ e, AppAction.showPackageTable e ∈ handleTreeClick data →
      e = data ∧ data.path ≠ none ∧ data.path ≠ some "") := by
  constructor
  · intro h
    simp [handleTreeClick, h]
  · intro e he
    unfold handleTreeClick at he
    by_cases h : optTruthy data.path = true
    · simp [h] at he
      refine ⟨he, ?_, ?_⟩ <;> rcases hp : data.path with _ | s <;>
        simp [optTruthy, hp] at h ⊢
      rintro rfl
      simp at h
    · simp [Bool.not_eq_true] at h
      simp [h] at he

/-- C5 witness: clicking the synthetic root node performs no action. -/
theorem handle_tree_click_guard_witness : handleTreeClick rootEnv = [] :=
  (handle_tree_click_guard rootEnv).1 (by decide)

/-- The attribute names defined on the `Package` view-model itself (its
instance fields and class-level properties/methods).  Python only invokes
`__getattr__` for names outside this set. -/
def Package.ownAttrs : List String :=
  ["_record", "_update_available", "update_available", "status",
   "_get_update_status_icon", "description"]

/-- Embeds `Package.__getattr__`: `getattr(self._record, item)` — look the
name up on the wrapped record; an absent attribute raises
`AttributeError`. -/
def Package.getattrFallback (p : Package) (item : String) : Except PyError String :=
  match p.record.attrs item with
  | some v => Except.ok v
  | none => Except.error PyError.attributeError

/-- C9: for every attribute name not defined on the view-model itself (so
Python dispatches the read to `__getattr__`), the read returns exactly the
wrapped record's value for that name, and it raises `AttributeError` if
and only if the record lacks the attribute. -/
theorem package_getattr_passthrough (p : Package) (item : String)
    (h : item ∉ Package.ownAttrs) :
    (∀ v, Package.getattrFallback p item = Except.ok v ↔ p.record.attrs item = some v) ∧
    (Package.getattrFallback p item = Except.error PyError.attributeError ↔
      p.record.attrs item = none) := by
  cases hrec : p.record.attrs item <;>
    simp [Package.getattrFallback, hrec]

/-- C9 witness: reading the unmapped `"channel"` attribute on a concrete
package passes through to the record's value. -/
theorem package_getattr_passthrough_witness :
    Package.getattrFallback samplePackage "channel" = Except.ok "defaults" ↔
      samplePackage.record.attrs "channel" = some "defaults" :=
  (package_getattr_passthrough samplePackage "channel" (by decide)).1 "defaults"

/-- The filled-circle glyph prefixed to expanded nodes. -/
def filledCircle : String := "●"

/-- The empty-circle glyph prefixed to collapsed nodes. -/
def emptyCircle : String := "○"

/-- Embeds `EnvironmentTree.render_label` for a node whose raw label is a
string: the label text is `(data.rpath if is_hover else data.name or
data.rpath) or node.label`, stylized bold when hovered, and prefixed with
a filled circle when expanded, an empty circle otherwise, separated by a
space.  The `is_cursor` and `has_focus` parameters do not enter the
produced label (they only populate the widget's click metadata). -/
def render_label (rawLabel : String) (data : Environment)
    (expanded is_cursor is_hover has_focus : Bool) : RichText :=
  let labelText :=
    pyOrStr (if is_hover then data.rpath else pyOr data.name data.rpath) rawLabel
  let label : RichText := ⟨[(labelText, if is_hover then "bold" else "")]⟩
  RichText.append
    (RichText.append ⟨[((if expanded then filledCircle else emptyCircle), "")]⟩
      (RichText.plain " "))
    label

/-- C7: the rendered label text is the environment's `rpath` when hovered,
else its `name` when set, else its `rpath`, else the raw node label; it is
stylized bold exactly when hovered; and it is prefixed by the
filled-circle glyph when expanded and the empty-circle glyph otherwise. -/
theorem render_label_rule (rawLabel : String) (data : Environment)
    (expanded is_cursor is_hover has_focus : Bool) :
    render_label rawLabel data expanded is_cursor is_hover has_focus =
      ⟨[((if expanded then filledCircle else emptyCircle), ""), (" ", ""),
        ((if is_hover then
            (if optTruthy data.rpath then data.rpath.getD "" else rawLabel)
          else if optTruthy data.name then data.name.getD ""
          else if optTruthy data.rpath then data.rpath.getD ""
          else rawLabel),
         (if is_hover then "bold" else ""))]⟩ := by
  unfold render_label RichText.append RichText.plain pyOrStr pyOr
  cases is_hover <;> cases expanded <;>
    by_cases hn : optTruthy data.name = true <;>
    by_cases hr : optTruthy data.rpath = true <;>
    simp [hn, hr]

/-- Lookup in the memoization table of `functools.cache`, keyed by the
argument's value equality (`Environment.__eq__` / `__hash__`). -/
def cacheLookup : List (Environment × List Package) → Environment → Option (List Package)
  | [], _ => none
  | (e, r) :: rest, env => if env = e then some r else cacheLookup rest env

/-- The process-wide state of the memoized lister: the cache table and the
log of environments whose metadata store has actually been read. -/
structure ListerState where
  cache : List (Environment × List Package)
  storeReads : List Environment

/-- The state at process start: empty cache, no store reads. -/
def initListerState : ListerState := ⟨[], []⟩

/-- Embeds the `@cache`-decorated `list_packages_for_environment`: on a
cache hit the stored sequence object is returned unchanged and the store
is not touched; on a miss the store is read once, the result computed and
stored. -/
def listPackagesCached (store : Store) (draws : Nat → Bool) (s : ListerState)
    (env : Environment) : List Package × ListerState :=
  match cacheLookup s.cache env with
  | some r => (r, s)
  | none =>
    let r := list_packages_for_environment store draws env
    (r, ⟨(env, r) :: s.cache, env :: s.storeReads⟩)

/-- Run a sequence of memoized listing calls from a given state. -/
def runCalls (store : Store) (draws : Nat → Bool) :
    List Environment → ListerState → ListerState
  | [], s => s
  | e :: es, s => runCalls store draws es (listPackagesCached store draws s e).2

/-- Occurrence count of an environment in a list. -/
def countOcc (l : List Environment) (env : Environment) : Nat :=
  (l.filter (fun e => e = env)).length

/-- Cache/read-log invariant of the memoized lister: each environment has
been read at most once, and any environment that has been read is present
in the cache. -/
def ListerInv (s : ListerState) : Prop :=
  ∀ e, countOcc s.storeReads e ≤ 1 ∧
    (countOcc s.storeReads e = 1 → (cacheLookup s.cache e).isSome)

theorem listerInv_init : ListerInv initListerState := by
  intro e
  simp [initListerState, countOcc, cacheLookup]

theorem cacheLookup_cons_isSome (c : List (Environment × List Package))
    (e env : Environment) (r : List Package)
    (h : (cacheLookup c env).isSome) :
    (cacheLookup ((e, r) :: c) env).isSome := by
  by_cases he : env = e <;> simp [cacheLookup, he, h]

theorem countOcc_cons_self (l : List Environment) (env : Environment) :
    countOcc (env :: l) env = countOcc l env + 1 := by
  simp [countOcc]

theorem countOcc_cons_ne (l : List Environment) (a e : Environment) (h : a ≠ e) :
    countOcc (a :: l) e = countOcc l e := by
  simp [countOcc, h]

theorem listerInv_step (store : Store) (draws : Nat → Bool) (s : ListerState)
    (env : Environment) (hs : ListerInv s) :
    ListerInv (listPackagesCached store draws s env).2 := by
  unfold listPackagesCached
  cases hl : cacheLookup s.cache env with
  | some r => exact hs
  | none =>
    intro e
    rcases hs e with ⟨hle, hcache⟩
    by_cases he : e = env
    · subst he
      have h0 : countOcc s.storeReads e = 0 := by
        rcases Nat.le_one_iff_eq_zero_or_eq_one.mp hle with h | h
        · exact h
        · exact absurd (hcache h) (by simp [hl])
      constructor
      · simp [countOcc_cons_self, h0]
      · intro _
        simp [cacheLookup]
    · have hcount : countOcc (env :: s.storeReads) e = countOcc s.storeReads e :=
        countOcc_cons_ne s.storeReads env e (fun hh => he hh.symm)
      constructor
      · simpa [hcount] using hle
      · intro h1
        exact cacheLookup_cons_isSome _ _ _ _ (hcache (by simpa [hcount] using h1))

theorem listerInv_runCalls (store : Store) (draws : Nat → Bool)
    (calls : List Environment) (s : ListerState) (hs : ListerInv s) :
    ListerInv (runCalls store draws calls s) := by
  induction calls generalizing s with
  | nil => exact hs
  | cons e es ih => exact ih _ (listerInv_step store draws s e hs)

theorem listPackagesCached_hit (store : Store) (draws : Nat → Bool)
    (s : ListerState) (env : Environment) (r : List Package)
    (h : cacheLookup s.cache env = some r) :
    listPackagesCached store draws s env = (r, s) := by
  simp [listPackagesCached, h]

/-- C3: value-equal environments hit the same memoization slot: after any
first call, a second call with an equal environment returns the very
result-state pair of the first (the cached sequence, no state change and
no store read), the cache then holds exactly that sequence for the
environment, and over any call sequence from process start the metadata
store is read at most once per distinct environment value. -/
theorem list_packages_cached_by_value (store : Store) (draws : Nat → Bool)
    (e1 e2 : Environment) (h : e1 = e2) (s : ListerState)
    (calls : List Environment) :
    listPackagesCached store draws (listPackagesCached store draws s e1).2 e2
      = listPackagesCached store draws s e1 ∧
    cacheLookup (listPackagesCached store draws s e1).2.cache e2
      = some (listPackagesCached store draws s e1).1 ∧
    countOcc (runCalls store draws calls initListerState).storeReads e1 ≤ 1 := by
  subst h
  have hmain : cacheLookup (listPackagesCached store draws s e1).2.cache e1
      = some (listPackagesCached store draws s e1).1 := by
    unfold listPackagesCached
    cases hl : cacheLookup s.cache e1 with
    | some r => simpa using hl
    | none => simp [cacheLookup]
  refine ⟨?_, hmain, ?_⟩
  · have := listPackagesCached_hit store draws
      (listPackagesCached store draws s e1).2 e1
      (listPackagesCached store draws s e1).1 hmain
    cases hcall : listPackagesCached store draws s e1 with
    | mk r s' =>
      rw [hcall] at this
      simpa using this
  · exact (listerInv_runCalls store draws calls initListerState listerInv_init e1).1

/-- A concrete store mapping every path to a two-record listing. -/
def sampleStore : Store := fun _ =>
  [{ name := "zlib", version := "1.2.13" }, sampleRecord]

/-- A concrete discovered environment. -/
def sampleEnv : Environment :=
  { name := some "base", path := some "/opt/conda", rpath := some "~/conda" }

/-- C3 witness: the caching statement instantiated at a concrete store and
environment, the equality hypothesis discharged by `rfl`. -/
theorem list_packages_cached_by_value_witness :
    listPackagesCached sampleStore (fun _ => false)
        (listPackagesCached sampleStore (fun _ => false) initListerState sampleEnv).2 sampleEnv
      = listPackagesCached sampleStore (fun _ => false) initListerState sampleEnv ∧
    cacheLookup (listPackagesCached sampleStore (fun _ => false) initListerState sampleEnv).2.cache
        sampleEnv
      = some (listPackagesCached sampleStore (fun _ => false) initListerState sampleEnv).1 ∧
    countOcc (runCalls sampleStore (fun _ => false) [sampleEnv, sampleEnv, rootEnv]
        initListerState).storeReads sampleEnv ≤ 1 :=
  list_packages_cached_by_value sampleStore (fun _ => false) sampleEnv sampleEnv rfl
    initListerState [sampleEnv, sampleEnv, rootEnv]

/-- A failure of the external metadata store: the directory is corrupt or
not an environment, so opening/enumerating it raises. -/
inductive StoreError where
  | corruptStore
deriving DecidableEq, Repr

/-- The external metadata store when its failure modes are modelled: for a
path, either the records or the error the store's enumeration raises. -/
def StoreF := String → Except StoreError (List PrefixRecord)

/-- Embeds `list_packages_for_environment` against a fallible store.  The
source body has no `try`/`except`: whatever the store raises propagates to
the caller unchanged, and only a successful enumeration is wrapped and
sorted. -/
def listPackagesFallible (store : StoreF) (draws : Nat → Bool)
    (env : Environment) : Except StoreError (List Package) :=
  match store env.prefixStr with
  | Except.error e => Except.error e
  | Except.ok records =>
    Except.ok ((records.enum.map (fun ir => Package.mk ir.2 (draws ir.1))).mergeSort
      packageNameLe)

/-- A store whose every directory is unreadable. -/
def corruptStoreF : StoreF := fun _ => Except.error StoreError.corruptStore

/-- C8 counterexample: on an unreadable environment, the lister's result is
the store's own raw error — the function builds no distinct "unreadable
environment" condition of its own (there is no handling code at all), so
the store's exception reaches the caller unchanged. -/
theorem list_packages_unreadable_cex :
    listPackagesFallible corruptStoreF (fun _ => false) sampleEnv
      = Except.error StoreError.corruptStore ∧
    corruptStoreF sampleEnv.prefixStr = Except.error StoreError.corruptStore :=
  ⟨rfl, rfl⟩

/-- C8 amended: when the metadata store cannot be opened,
`list_packages_for_environment` performs no handling or translation: the
store's error propagates unchanged to the caller. -/
theorem list_packages_unreadable_propagates (store : StoreF) (draws : Nat → Bool)
    (env : Environment) (e : StoreError) (h : store env.prefixStr = Except.error e) :
    listPackagesFallible store draws env = Except.error e := by
  simp [listPackagesFallible, h]

/-- C8 amended witness: the propagation statement at the concrete corrupt
store, the hypothesis discharged by `rfl`. -/
theorem list_packages_unreadable_propagates_witness :
    listPackagesFallible corruptStoreF (fun _ => true) sampleEnv
      = Except.error StoreError.corruptStore :=
  list_packages_unreadable_propagates corruptStoreF (fun _ => true) sampleEnv
    StoreError.corruptStore rfl

/-- The ZERO WIDTH SPACE filler character used to wrap each logo line. -/
def zwsp : Char := Char.ofNat 0x200B

/-- Python `str.split("\n")` over the file content, viewed as its sequence
of code points; always yields at least one line. -/
def splitNl : List Char → List (List Char)
  | [] => [[]]
  | c :: cs =>
    if c = '\n' then [] :: splitNl cs
    else
      match splitNl cs with
      | [] => [[c]]
      | l :: ls => (c :: l) :: ls

/-- Python's f-string width padding `f"{line:{w}s}"`: left-justify and pad
with spaces up to width `w`. -/
def padTo (w : Nat) (l : List Char) : List Char :=
  l ++ List.replicate (w - l.length) ' '

/-- Embeds `max(len(line) for line in lines)` (the lines list is never
empty, so folding from 0 over the non-negative lengths is that maximum). -/
def maxLineLength (lines : List (List Char)) : Nat :=
  (lines.map List.length).foldl max 0

/-- Embeds the line processing of `get_logo`: split the asset's content on
newlines, pad every line to the maximum line length, and wrap each in the
zero-width filler on both ends. -/
def getLogoLines (content : List Char) : List (List Char) :=
  let lines := splitNl content
  let m := maxLineLength lines
  lines.map (fun l => zwsp :: (padTo m l ++ [zwsp]))

/-- Visible width of a terminal line: its characters minus the zero-width
fillers. -/
def visibleLen (l : List Char) : Nat :=
  (l.filter (fun c => !(c == zwsp))).length

/-- The `lru_cache` state of `get_logo`: the cached value, if any, and how
often the asset file has been read from disk. -/
structure LogoState where
  cached : Option (List (List Char))
  fileReads : Nat
deriving DecidableEq

/-- The state at process start: nothing cached, no reads. -/
def initLogoState : LogoState := ⟨none, 0⟩

/-- Embeds the `lru_cache()`-decorated `get_logo`: a hit returns the cached
value unchanged without touching the disk; a miss reads the file once and
caches the computed value. -/
def getLogoCall (content : List Char) (s : LogoState) :
    List (List Char) × LogoState :=
  match s.cached with
  | some t => (t, s)
  | none => (getLogoLines content, ⟨some (getLogoLines content), s.fileReads + 1⟩)

theorem le_foldl_max (ns : List Nat) (a : Nat) : a ≤ ns.foldl max a := by
  induction ns generalizing a with
  | nil => exact le_refl a
  | cons n ns ih => exact le_trans (le_max_left a n) (ih (max a n))

theorem mem_le_foldl_max (ns : List Nat) (a : Nat) (n : Nat) (h : n ∈ ns) :
    n ≤ ns.foldl max a := by
  induction ns generalizing a with
  | nil => cases h
  | cons m ns ih =>
    rcases List.mem_cons.mp h with rfl | hmem
    · exact le_trans (le_max_right a n) (le_foldl_max ns (max a n))
    · exact ih (max a m) hmem

theorem splitNl_ne_nil (content : List Char) : splitNl content ≠ [] := by
  cases content with
  | nil => simp [splitNl]
  | cons c cs =>
    unfold splitNl
    by_cases h : c = '\n'
    · simp [h]
    · simp only [h, if_false]
      cases splitNl cs <;> simp

theorem mem_splitNl_mem (content : List Char) (l : List Char)
    (hl : l ∈ splitNl content) (c : Char) (hc : c ∈ l) : c ∈ content := by
  induction content generalizing l with
  | nil =>
    simp [splitNl] at hl
    subst hl
    cases hc
  | cons a cs ih =>
    unfold splitNl at hl
    by_cases h : a = '\n'
    · simp only [h, if_true] at hl
      rcases List.mem_cons.mp hl with rfl | hmem
      · cases hc
      · exact List.mem_cons_of_mem a (ih l hmem hc)
    · simp only [h, if_false] at hl
      cases hs : splitNl cs with
      | nil => exact absurd hs (splitNl_ne_nil cs)
      | cons l0 ls =>
        rw [hs] at hl
        rcases List.mem_cons.mp hl with rfl | hmem
        · rcases List.mem_cons.mp hc with rfl | hc0
          · exact List.mem_cons_self c cs
          · exact List.mem_cons_of_mem a (ih l0 (hs ▸ List.mem_cons_self l0 ls) hc0)
        · exact List.mem_cons_of_mem a (ih l (hs ▸ List.mem_cons_of_mem l0 hmem) hc)

/-- C6: every returned logo line is the original line padded to the
maximum line length and wrapped in the zero-width filler on both ends —
all lines have visible width equal to that maximum and total length two
more — and the memoized `get_logo` reads the file once: the second call
returns the identical cached value with no further read. -/
theorem get_logo_padding_and_cache (content : List Char)
    (hz : ∀ c ∈ content, c ≠ zwsp) :
    (∀ line ∈ getLogoLines content,
      visibleLen line = maxLineLength (splitNl content) ∧
      line.length = maxLineLength (splitNl content) + 2 ∧
      line.head? = some zwsp ∧ line.getLast? = some zwsp) ∧
    getLogoCall content (getLogoCall content initLogoState).2
      = getLogoCall content initLogoState ∧
    (getLogoCall content initLogoState).2.fileReads = 1 := by
  refine ⟨?_, by simp [getLogoCall, initLogoState], by simp [getLogoCall, initLogoState]⟩
  intro line hline
  rcases List.mem_map.mp hline with ⟨l, hlmem, rfl⟩
  have hlen : l.length ≤ maxLineLength (splitNl content) :=
    mem_le_foldl_max _ 0 l.length (List.mem_map.mpr ⟨l, hlmem, rfl⟩)
  have hpadlen : (padTo (maxLineLength (splitNl content)) l).length
      = maxLineLength (splitNl content) := by
    simp [padTo]
    omega
  have hkeep : ∀ c ∈ padTo (maxLineLength (splitNl content)) l, (!(c == zwsp)) = true := by
    intro c hc
    rcases List.mem_append.mp hc with hcl | hcr
    · have : c ≠ zwsp := hz c (mem_splitNl_mem content l hlmem c hcl)
      simpa using this
    · have : c = ' ' := List.eq_of_mem_replicate hcr
      subst this
      decide
  refine ⟨?_, ?_, rfl, ?_⟩
  · simp only [visibleLen, List.filter_cons, List.filter_append]
    have hz1 : (!(zwsp == zwsp)) = false := by decide
    rw [hz1]
    simp only [List.filter_eq_self.mpr hkeep, List.filter_cons, hz1, List.filter_nil]
    simp [hpadlen]
  · simp [hpadlen]
  · rw [show zwsp :: (padTo (maxLineLength (splitNl content)) l ++ [zwsp])
        = (zwsp :: padTo (maxLineLength (splitNl content)) l) ++ [zwsp] by simp]
    exact List.getLast?_concat _

/-- A concrete two-line asset content, `"ab\ncd"`, free of the filler
character. -/
def sampleLogoContent : List Char := ['a', 'b', '\n', 'c', 'd']

/-- C6 witness: the padding-and-caching statement at the concrete asset
content, the no-filler hypothesis discharged by `decide`. -/
theorem get_logo_padding_and_cache_witness :
    (∀ line ∈ getLogoLines sampleLogoContent,
      visibleLen line = maxLineLength (splitNl sampleLogoContent) ∧
      line.length = maxLineLength (splitNl sampleLogoContent) + 2 ∧
      line.head? = some zwsp ∧ line.getLast? = some zwsp) ∧
    getLogoCall sampleLogoContent (getLogoCall sampleLogoContent initLogoState).2
      = getLogoCall sampleLogoContent initLogoState ∧
    (getLogoCall sampleLogoContent initLogoState).2.fileReads = 1 :=
  get_logo_padding_and_cache sampleLogoContent (by decide)

/-- C1 witness: the sortedness-and-idempotence statement at a concrete
store and environment. -/
theorem list_packages_sorted_and_idempotent_witness :
    List.Sorted (fun a b : Package => a.name ≤ b.name)
      (list_packages_for_environment sampleStore (fun _ => false) sampleEnv) ∧
    (list_packages_for_environment sampleStore (fun _ => false) sampleEnv).mergeSort
        packageNameLe
      = list_packages_for_environment sampleStore (fun _ => false) sampleEnv :=
  list_packages_sorted_and_idempotent sampleStore (fun _ => false) sampleEnv

/-- C7 witness: the label-rendering rule at a concrete hovered, expanded
node over a concrete environment. -/
theorem render_label_rule_witness :
    render_label "envs" sampleEnv true false true true =
      ⟨[((if true then filledCircle else emptyCircle), ""), (" ", ""),
        ((if true then
            (if optTruthy sampleEnv.rpath then sampleEnv.rpath.getD "" else "envs")
          else if optTruthy sampleEnv.name then sampleEnv.name.getD ""
          else if optTruthy sampleEnv.rpath then sampleEnv.rpath.getD ""
          else "envs"),
         (if true then "bold" else ""))]⟩ :=
  render_label_rule "envs" sampleEnv true false true true

/-- C10 witness: the set-then-read statement at a concrete package and
flag. -/
theorem set_update_available_roundtrip_witness :
    (samplePackage.setUpdateAvailable false).update_available = false ∧
    (samplePackage.setUpdateAvailable false).status = RichText.append
      (RichText.append (if false then upGlyph else checkGlyph) (RichText.plain " "))
      (RichText.plain samplePackage.version) :=
  set_update_available_roundtrip samplePackage false

end CondaTui
